import Mathlib

/-!
Verification development for the classification-and-aggregation core of the
Nihongo Navigator sentiment app (`src/app.py`, class `SentimentAnalysisApp`).

The Python source is shallowly embedded: dictionaries become association
lists (insertion-ordered, first-key lookup, in-place value replacement —
the semantics of `dict`), Python ints become `Int`, floats become `ℚ`,
strings become `String` with code-point semantics, and the fallible file
operations performed by `_save_updated_data` become explicit state passing
over a filesystem record together with failure-injection flags; a raised
exception is modelled by jumping to the enclosing handler, returning the
filesystem as mutated so far.

`_save_updated_data` and `create_update_history` each have two textual
definitions in `app.py`; by Python class-body semantics the later
definition shadows the earlier one, so the effective method is the second
textual definition in both cases.  Both versions are embedded; the
unsuffixed name is the effective (second) one.
-/

namespace NihongoNavigator

/-- Association-list lookup: the value stored under key `k`, first match.
Models Python `d[k]` / `d.get(k)` on a dict represented in insertion order. -/
def afind (k : String) : List (String × α) → Option α
  | [] => none
  | (k', v) :: rest => if k' = k then some v else afind k rest

/-- Association-list store: models Python `d[k] = v` — replace the value at
the first occurrence of `k`, or append a new binding at the end. -/
def aset (k : String) (v : α) : List (String × α) → List (String × α)
  | [] => [(k, v)]
  | (k', v') :: rest => if k' = k then (k', v) :: rest else (k', v') :: aset k v rest

/-- One feature's counter pair, `{'positive': …, 'negative': …}` in the JSON
documents and in `self.apps_data`. -/
structure Counters where
  positive : Int
  negative : Int
deriving DecidableEq, Repr

/-- Per-application aggregate: feature name → counters, a Python dict. -/
abbrev AppAggregate := List (String × Counters)

/-- `self.apps_data`: application name → per-application aggregate. -/
abbrev AggregateStore := List (String × AppAggregate)

/-- Counters for feature `f`, defaulting to `{'positive': 0, 'negative': 0}`
when absent — the lazy initialisation performed at `app.py` lines 724-725
(`if feature not in …: … = {'positive': 0, 'negative': 0}`). -/
def getCounters (agg : AppAggregate) (f : String) : Counters :=
  (afind f agg).getD ⟨0, 0⟩

/-- `get_aggregate`: the aggregate of an application, `{}` when unknown
(`self.apps_data.get(selected_app, {})`, line 620). -/
def get_aggregate (store : AggregateStore) (app : String) : AppAggregate :=
  (afind app store).getD []

/-- Lines 727-731: `if sentiment == 'positive': …['positive'] += 1 else:
…['negative'] += 1`. -/
def incCounter (sentiment : String) (c : Counters) : Counters :=
  if sentiment = "positive" then { c with positive := c.positive + 1 }
  else { c with negative := c.negative + 1 }

/-- Loop body of lines 723-731: ensure the feature's counter pair exists
(initialising to `{0, 0}`), then increment the counter selected by the
sentiment label. -/
def applyFeature (sentiment : String) (agg : AppAggregate) (f : String) : AppAggregate :=
  aset f (incCounter sentiment (getCounters agg f)) agg

/-- Lines 718-733: ensure the application's dict exists (`{}` when absent,
lines 718-719), then fold the per-feature increment over the detected
features in order. -/
def updateStore (app sentiment : String) (features : List String)
    (store : AggregateStore) : AggregateStore :=
  let agg := (afind app store).getD []
  aset app (features.foldl (applyFeature sentiment) agg) store

/-- `prediction` dict produced by the predictor: sentiment label, confidence
score, detected feature list. -/
structure ClassificationResult where
  sentiment : String
  confidence : ℚ
  features : List String
deriving DecidableEq, Repr

/-- `st.session_state.last_prediction` (lines 392-398): the review text, the
target application, the classification result and the timestamp string. -/
structure PredictionData where
  text : String
  app : String
  prediction : ClassificationResult
  timestamp : String
deriving DecidableEq, Repr

/-- One record of `data/update_log.json` (lines 1014-1022). -/
structure LogEntry where
  timestamp : String
  app_name : String
  sentiment : String
  features : List String
  review_text : String
  confidence : ℚ
  backup_file : String
deriving DecidableEq, Repr

/-- The slice of the filesystem touched by the save path: the per-application
JSON documents under `data/raw/`, the backup files under `data/backups/`,
and the audit log `data/update_log.json` (`none` when the file does not
exist). -/
structure FS where
  rawFiles : List (String × AppAggregate)
  backupFiles : List (String × AppAggregate)
  logs : Option (List LogEntry)
deriving DecidableEq, Repr

/-- Failure injection for the three file writes performed while saving;
a `true` flag makes the corresponding `open`/`json.dump` raise. -/
structure IOEnv where
  backupWriteFails : Bool
  persistWriteFails : Bool
  logWriteFails : Bool
deriving DecidableEq, Repr

/-- `app_name.lower().replace(' ', '')` over code points (ASCII app names). -/
def lowerNoSpaces (s : String) : String :=
  String.mk ((s.data.map Char.toLower).filter (fun c => c ≠ ' '))

/-- Line 998: `f"data/raw/hasil_sentimen_{app_name.lower().replace(' ', '')}_agregat.json"`.
(The first, shadowed version's explicit filename mapping at lines 778-785
produces exactly these names for all six known applications.) -/
def app_filename (app_name : String) : String :=
  "data/raw/hasil_sentimen_" ++ lowerNoSpaces app_name ++ "_agregat.json"

/-- Line 995: `f"{backup_dir}/backup_{app_name}_{timestamp}.json"` — the
backup artifact is named by the application and the current timestamp. -/
def backup_filename (app_name timestamp : String) : String :=
  "data/backups/backup_" ++ app_name ++ "_" ++ timestamp ++ ".json"

/-- Line 775 (first, shadowed version): the backup name lower-cases and
strips spaces from the application name. -/
def backup_filename_v1 (app_name timestamp : String) : String :=
  "data/backups/backup_" ++ lowerNoSpaces app_name ++ "_" ++ timestamp ++ ".json"

/-- Lines 1019 and 835: `prediction_data['text'][:100] + "..." if
len(prediction_data['text']) > 100 else prediction_data['text']`
(`[:100]` slices the first 100 code points). -/
def review_excerpt (text : String) : String :=
  if text.length > 100 then String.mk (text.data.take 100) ++ "..." else text

/-- The log record built at lines 1014-1022. -/
def mkLogEntry (app_name : String) (pd : PredictionData) (backup_file : String) : LogEntry :=
  { timestamp := pd.timestamp
    app_name := app_name
    sentiment := pd.prediction.sentiment
    features := pd.prediction.features
    review_text := review_excerpt pd.text
    confidence := pd.prediction.confidence
    backup_file := backup_file }

/-- The last `n` elements of a list — Python `l[-n:]`. -/
def lastN (n : Nat) (l : List α) : List α :=
  l.drop (l.length - n)

/-- Lines 1033-1036: `logs.append(log_entry)` followed by `logs = logs[-100:]`. -/
def appendLog (logs : List LogEntry) (e : LogEntry) : List LogEntry :=
  lastN 100 (logs ++ [e])

/-- The effective `_save_updated_data` (second textual definition, lines
982-1044).  All statements sit inside one `try`; any injected failure jumps
to the single `except` handler at line 1043, which only prints a warning —
so the function falls off the end on every path and returns `None`
(modelled as the `Option Bool` component being `none`).  Steps, in source
order: derive the backup and document filenames; if the application's
document exists, copy it verbatim to the backup file; overwrite the
document with `data` (= `self.apps_data[app_name]`); append the log entry
to the audit log read from disk (`[]` when the file is absent), keep the
last 100 entries, and write the log back. -/
def save_updated_data (env : IOEnv) (app_name : String) (pd : PredictionData)
    (data : AppAggregate) (ts : String) (fs : FS) : FS × Option Bool :=
  let bfn := backup_filename app_name ts
  let afn := app_filename app_name
  let step2 : FS → FS × Option Bool := fun fs1 =>
    if env.persistWriteFails then (fs1, none)
    else
      let fs2 := { fs1 with rawFiles := aset afn data fs1.rawFiles }
      let logs2 := appendLog (fs2.logs.getD []) (mkLogEntry app_name pd bfn)
      if env.logWriteFails then (fs2, none)
      else ({ fs2 with logs := some logs2 }, none)
  match afind afn fs.rawFiles with
  | some backup_data =>
      if env.backupWriteFails then (fs, none)
      else step2 { fs with backupFiles := aset bfn backup_data fs.backupFiles }
  | none => step2 fs

/-- The first, shadowed `_save_updated_data` (lines 762-822).  It differs
from the effective version in three ways: the backup copy sits in its own
inner `try`/`except`, so a backup failure only warns and the save proceeds
(lines 795-804); the log write happens in `_log_update` (lines 824-860),
whose own handler makes a log failure non-fatal; and the function returns
`True` on success and `False` from its outer handler. -/
def save_updated_data_shadowed (env : IOEnv) (app_name : String) (pd : PredictionData)
    (data : AppAggregate) (ts : String) (fs : FS) : FS × Option Bool :=
  let bfn := backup_filename_v1 app_name ts
  let afn := app_filename app_name
  let fs1 :=
    match afind afn fs.rawFiles with
    | some backup_data =>
        if env.backupWriteFails then fs
        else { fs with backupFiles := aset bfn backup_data fs.backupFiles }
    | none => fs
  if env.persistWriteFails then (fs1, some false)
  else
    let fs2 := { fs1 with rawFiles := aset afn data fs1.rawFiles }
    let logs2 := appendLog (fs2.logs.getD []) (mkLogEntry app_name pd bfn)
    if env.logWriteFails then (fs2, some true)
    else ({ fs2 with logs := some logs2 }, some true)

/-- Python truthiness of the `success` variable at line 738: only a real
`True` return enables the success branch (`None` and `False` are falsy). -/
def truthy : Option Bool → Bool
  | some b => b
  | none => false

/-- Result of `_update_app_data`: either the empty-feature rejection at
lines 712-714, or a completed call recording whether the `if success:`
branch (lines 738-755: success message, updated statistics, session-state
clearing, UI refresh) executed. -/
inductive Outcome where
  | featureNotDetected
  | completed (successBranchRan : Bool)
deriving DecidableEq, Repr

/-- In-memory store plus the filesystem slice, the state mutated by
`_update_app_data`. -/
structure AppState where
  apps_data : AggregateStore
  fs : FS
deriving DecidableEq, Repr

/-- `_update_app_data` (lines 705-760), the update coordinator.  If the
prediction has no detected features, reject with an error message and
return with nothing mutated (lines 712-714).  Otherwise mutate the
in-memory counters first (lines 718-733), then call the effective
`_save_updated_data` (line 736), and run the success branch only if the
returned value is truthy (line 738). -/
def update_app_data (env : IOEnv) (ts : String) (pd : PredictionData)
    (st : AppState) : AppState × Outcome :=
  let features := pd.prediction.features
  if features = [] then (st, Outcome.featureNotDetected)
  else
    let store1 := updateStore pd.app pd.prediction.sentiment features st.apps_data
    let data := (afind pd.app store1).getD []
    let r := save_updated_data env pd.app pd data ts st.fs
    ({ apps_data := store1, fs := r.1 }, Outcome.completed (truthy r.2))

/-- The percentage computed at lines 130-131, 170-171, 631, 877-878:
`(pos / total * 100) if total > 0 else 0`, with Python's true division
modelled exactly over `ℚ`. -/
def pctOfCounts (pos neg : Int) : ℚ :=
  if pos + neg > 0 then (pos : ℚ) / ((pos : ℚ) + (neg : ℚ)) * 100 else 0

/-- The `%.1f` display formatting (`f"{percentage:.1f}%"`, lines 132, 648,
882): round to the nearest multiple of one tenth. -/
def fmt1 (x : ℚ) : ℚ :=
  (round (10 * x) : ℚ) / 10

/-- The percentage cell of `create_comparison_table` (lines 126-136): when
the feature is present in the application's data, the computed percentage;
otherwise the literal `"0.0%"`. -/
def tablePct (appData : AppAggregate) (f : String) : ℚ :=
  match afind f appData with
  | some c => fmt1 (pctOfCounts c.positive c.negative)
  | none => fmt1 0

/-- The effective `create_update_history` (second textual definition, lines
1047-1125; the filtering pipeline is identical in the shadowed first
version).  Sort the stored log newest-first by timestamp (line 1066,
`logs.sort(key=…, reverse=True)`), keep only the entries matching the
optional application filter (lines 1089-1090) and the optional sentiment
filter (lines 1092-1093) — `none` models the `'Semua'` (= all) choice —
and truncate to `limit` entries (line 1095). -/
def create_update_history (logs : List LogEntry)
    (app_filter sentiment_filter : Option String) (limit : Nat) : List LogEntry :=
  let sorted := logs.mergeSort (fun a b => decide (b.timestamp ≤ a.timestamp))
  let f1 := match app_filter with
    | none => sorted
    | some a => sorted.filter (fun lg => lg.app_name = a)
  let f2 := match sentiment_filter with
    | none => f1
    | some s => f1.filter (fun lg => lg.sentiment = s)
  f2.take limit

/-! ### Concrete fixtures

Small concrete inputs used to witness the theorems below: the no-failure
environment, scenario D's starting state (application `Mazii`, feature
`kanji` at `{positive: 5, negative: 2}`, with the matching document on
disk), and predictions with zero, one and three detected features. -/

/-- Environment in which every file operation succeeds. -/
def envOK : IOEnv := ⟨false, false, false⟩

/-- Scenario D starting state: `Mazii`'s `kanji` counters are `{5, 2}` both
in memory and in the persisted document; no backups, empty audit log. -/
def stD : AppState :=
  { apps_data := [("Mazii", [("kanji", ⟨5, 2⟩)])]
    fs := { rawFiles := [(app_filename "Mazii", [("kanji", ⟨5, 2⟩)])]
            backupFiles := []
            logs := some [] } }

/-- A positive single-feature (`kanji`) prediction aimed at `Mazii`. -/
def pdD : PredictionData :=
  { text := "Aplikasi ini sangat membantu untuk belajar kanji"
    app := "Mazii"
    prediction := { sentiment := "positive", confidence := 90, features := ["kanji"] }
    timestamp := "2024-01-01T00:00:00" }

/-- Scenario B: a prediction with no detected features. -/
def pdEmpty : PredictionData :=
  { text := "Aplikasi ini oke"
    app := "Mazii"
    prediction := { sentiment := "positive", confidence := 60, features := [] }
    timestamp := "2024-01-01T00:00:01" }

/-- A positive prediction with three detected features, aimed at an
application that is not yet in the store. -/
def pdThree : PredictionData :=
  { text := "Kanji, kosakata dan grammar dijelaskan dengan bagus"
    app := "Obenkyo"
    prediction := { sentiment := "positive", confidence := 85
                    features := ["kanji", "kotoba", "bunpou"] }
    timestamp := "2024-01-01T00:00:02" }

/-- A family of pairwise-distinct audit entries (distinguished by the
confidence field), used to exercise the 100-entry cap. -/
def mkE (i : Nat) : LogEntry :=
  ⟨"t", "A", "positive", [], "", (i : ℚ), ""⟩

/-- A committed-update audit entry for `Mazii`. -/
def eA : LogEntry :=
  ⟨"2024-01-02", "Mazii", "positive", ["kanji"], "bagus", 90, "b1"⟩

/-- A committed-update audit entry for `Obenkyo`, with an older timestamp. -/
def eB : LogEntry :=
  ⟨"2024-01-01", "Obenkyo", "negative", ["kotoba"], "buruk", 70, "b2"⟩

/-! ### Association-list lemmas -/

theorem afind_aset_self (k : String) (v : α) (l : List (String × α)) :
    afind k (aset k v l) = some v := by
  induction l with
  | nil => simp [afind, aset]
  | cons hd tl ih =>
    obtain ⟨k', v'⟩ := hd
    by_cases h : k' = k <;> simp [afind, aset, h, ih]

theorem afind_aset_ne (k k' : String) (v : α) (l : List (String × α))
    (h : k' ≠ k) : afind k' (aset k v l) = afind k' l := by
  induction l with
  | nil => simp [afind, aset, Ne.symm h]
  | cons hd tl ih =>
    obtain ⟨k₀, v₀⟩ := hd
    by_cases hk : k₀ = k
    · subst hk
      simp [afind, aset, Ne.symm h]
    · simp [afind, aset, hk, ih]

theorem get_aggregate_updateStore_self (app sentiment : String)
    (features : List String) (store : AggregateStore) :
    get_aggregate (updateStore app sentiment features store) app =
      features.foldl (applyFeature sentiment) (get_aggregate store app) := by
  simp [get_aggregate, updateStore, afind_aset_self]

theorem get_aggregate_updateStore_ne (app sentiment a : String)
    (features : List String) (store : AggregateStore) (h : a ≠ app) :
    get_aggregate (updateStore app sentiment features store) a =
      get_aggregate store a := by
  simp [get_aggregate, updateStore, afind_aset_ne _ _ _ _ h]

/-! ### Counter-increment lemmas -/

theorem getCounters_applyFeature_self (sentiment : String) (agg : AppAggregate)
    (f : String) :
    getCounters (applyFeature sentiment agg f) f =
      incCounter sentiment (getCounters agg f) := by
  simp [getCounters, applyFeature, afind_aset_self]

theorem getCounters_applyFeature_ne (sentiment : String) (agg : AppAggregate)
    (f g : String) (h : g ≠ f) :
    getCounters (applyFeature sentiment agg f) g = getCounters agg g := by
  simp [getCounters, applyFeature, afind_aset_ne _ _ _ _ h]

theorem getCounters_foldl_not_mem (sentiment : String) (features : List String)
    (agg : AppAggregate) (f : String) (h : f ∉ features) :
    getCounters (features.foldl (applyFeature sentiment) agg) f = getCounters agg f := by
  induction features generalizing agg with
  | nil => rfl
  | cons x xs ih =>
    have hfx : f ≠ x := fun hh => h (hh ▸ List.mem_cons_self x xs)
    have hxs : f ∉ xs := fun hh => h (List.mem_cons_of_mem x hh)
    simp only [List.foldl_cons]
    rw [ih _ hxs, getCounters_applyFeature_ne _ _ _ _ hfx]

theorem getCounters_foldl_mem (sentiment : String) (features : List String)
    (agg : AppAggregate) (f : String) (hmem : f ∈ features)
    (hnodup : features.Nodup) :
    getCounters (features.foldl (applyFeature sentiment) agg) f =
      incCounter sentiment (getCounters agg f) := by
  induction features generalizing agg with
  | nil => cases hmem
  | cons x xs ih =>
    simp only [List.foldl_cons]
    rcases List.mem_cons.mp hmem with h | h
    · subst h
      have hx : f ∉ xs := (List.nodup_cons.mp hnodup).1
      rw [getCounters_foldl_not_mem _ _ _ _ hx, getCounters_applyFeature_self]
    · have hfx : f ≠ x := fun hh => (List.nodup_cons.mp hnodup).1 (hh ▸ h)
      rw [ih _ h (List.nodup_cons.mp hnodup).2,
        getCounters_applyFeature_ne _ _ _ _ hfx]

/-! ### Bounded-log lemmas -/

theorem length_lastN_le (n : Nat) (l : List α) : (lastN n l).length ≤ n := by
  simp only [lastN, List.length_drop]
  omega

theorem lastN_of_length_le (n : Nat) (l : List α) (h : l.length ≤ n) :
    lastN n l = l := by
  simp [lastN, Nat.sub_eq_zero_of_le h]

theorem lastN_lastN_append (n : Nat) (xs ys : List α) :
    lastN n (lastN n xs ++ ys) = lastN n (xs ++ ys) := by
  simp only [lastN, List.length_append, List.length_drop,
    List.drop_append_eq_append_drop, List.drop_drop]
  congr 1 <;> congr 1 <;> omega

theorem appendLog_eq_drop_append (logs : List LogEntry) (e : LogEntry) :
    appendLog logs e = logs.drop (logs.length + 1 - 100) ++ [e] := by
  simp only [appendLog, lastN, List.length_append, List.length_singleton,
    List.drop_append_eq_append_drop]
  congr 1
  have h : logs.length + 1 - 100 - logs.length = 0 := by omega
  rw [h, List.drop_zero]

theorem length_appendLog_le (logs : List LogEntry) (e : LogEntry) :
    (appendLog logs e).length ≤ 100 :=
  length_lastN_le 100 _

theorem foldl_appendLog (es : List LogEntry) (acc : List LogEntry)
    (h : acc.length ≤ 100) :
    es.foldl appendLog acc = lastN 100 (acc ++ es) := by
  induction es generalizing acc with
  | nil => simp [lastN_of_length_le 100 acc h]
  | cons e es ih =>
    simp only [List.foldl_cons]
    rw [ih (appendLog acc e) (length_appendLog_le acc e)]
    show lastN 100 (lastN 100 (acc ++ [e]) ++ es) = _
    rw [lastN_lastN_append]
    simp

/-! ### Counter-monotonicity lemmas -/

theorem le_incCounter (sentiment : String) (c : Counters) :
    c.positive ≤ (incCounter sentiment c).positive ∧
      c.negative ≤ (incCounter sentiment c).negative := by
  unfold incCounter
  split <;> simp

theorem getCounters_applyFeature_mono (sentiment : String) (agg : AppAggregate)
    (x f : String) :
    (getCounters agg f).positive ≤ (getCounters (applyFeature sentiment agg x) f).positive ∧
      (getCounters agg f).negative ≤ (getCounters (applyFeature sentiment agg x) f).negative := by
  by_cases h : f = x
  · subst h
    rw [getCounters_applyFeature_self]
    exact le_incCounter _ _
  · rw [getCounters_applyFeature_ne _ _ _ _ h]
    exact ⟨le_refl _, le_refl _⟩

theorem getCounters_foldl_mono (sentiment : String) (features : List String)
    (agg : AppAggregate) (f : String) :
    (getCounters agg f).positive ≤
        (getCounters (features.foldl (applyFeature sentiment) agg) f).positive ∧
      (getCounters agg f).negative ≤
        (getCounters (features.foldl (applyFeature sentiment) agg) f).negative := by
  induction features generalizing agg with
  | nil => exact ⟨le_refl _, le_refl _⟩
  | cons x xs ih =>
    simp only [List.foldl_cons]
    have h1 := getCounters_applyFeature_mono sentiment agg x f
    have h2 := ih (applyFeature sentiment agg x)
    exact ⟨le_trans h1.1 h2.1, le_trans h1.2 h2.2⟩

/-! ### Claim theorems -/

/-- C1 (code_bug evaluation): at Scenario D's failing input — `Mazii` with
`kanji` at `{5, 2}` and a persistence collaborator that fails — the failed
`apply_update` leaves the in-memory counters at `{6, 2}` instead of the
pre-call `{5, 2}` demanded by the claim, because `_update_app_data`
increments `self.apps_data` (lines 723-731) before calling
`_save_updated_data` (line 736) and nothing rolls the increment back.  The
persisted document and the audit log are indeed unchanged. -/
theorem persistence_failure_memory_divergence :
    getCounters (get_aggregate stD.apps_data "Mazii") "kanji" = ⟨5, 2⟩ ∧
    (update_app_data ⟨false, true, false⟩ "ts1" pdD stD).2 = Outcome.completed false ∧
    getCounters
        (get_aggregate (update_app_data ⟨false, true, false⟩ "ts1" pdD stD).1.apps_data
          "Mazii") "kanji" = ⟨6, 2⟩ ∧
    (update_app_data ⟨false, true, false⟩ "ts1" pdD stD).1.fs.logs = stD.fs.logs ∧
    (update_app_data ⟨false, true, false⟩ "ts1" pdD stD).1.fs.rawFiles = stD.fs.rawFiles := by
  decide

/-- C2: a call to the update coordinator whose classification result has
pairwise-distinct detected features increments, for each detected feature,
exactly the counter matching the sentiment label by exactly 1
(independently per feature), leaves the opposite counter of each detected
feature and both counters of every undetected feature unchanged, and
leaves every other application's aggregate unchanged. -/
theorem apply_update_increment_correctness (env : IOEnv) (ts : String)
    (pd : PredictionData) (st : AppState)
    (hnodup : pd.prediction.features.Nodup) :
    (∀ f ∈ pd.prediction.features,
        (getCounters (get_aggregate (update_app_data env ts pd st).1.apps_data pd.app)
              f).positive =
            (getCounters (get_aggregate st.apps_data pd.app) f).positive +
              (if pd.prediction.sentiment = "positive" then 1 else 0) ∧
          (getCounters (get_aggregate (update_app_data env ts pd st).1.apps_data pd.app)
              f).negative =
            (getCounters (get_aggregate st.apps_data pd.app) f).negative +
              (if pd.prediction.sentiment = "positive" then 0 else 1)) ∧
    (∀ f, f ∉ pd.prediction.features →
        getCounters (get_aggregate (update_app_data env ts pd st).1.apps_data pd.app) f =
          getCounters (get_aggregate st.apps_data pd.app) f) ∧
    (∀ a, a ≠ pd.app →
        get_aggregate (update_app_data env ts pd st).1.apps_data a =
          get_aggregate st.apps_data a) := by
  by_cases hne : pd.prediction.features = []
  · have h1 : update_app_data env ts pd st = (st, Outcome.featureNotDetected) := by
      simp [update_app_data, hne]
    refine ⟨?_, ?_, ?_⟩ <;> simp [h1, hne]
  · have hstore : (update_app_data env ts pd st).1.apps_data =
        updateStore pd.app pd.prediction.sentiment pd.prediction.features st.apps_data := by
      simp [update_app_data, hne]
    refine ⟨fun f hf => ?_, fun f hf => ?_, fun a ha => ?_⟩
    · rw [hstore, get_aggregate_updateStore_self,
        getCounters_foldl_mem _ _ _ _ hf hnodup]
      by_cases hs : pd.prediction.sentiment = "positive" <;> simp [incCounter, hs]
    · rw [hstore, get_aggregate_updateStore_self,
        getCounters_foldl_not_mem _ _ _ _ hf]
    · rw [hstore, get_aggregate_updateStore_ne _ _ _ _ _ ha]

/-- C2 witness: applying the three-feature positive prediction to an
application absent from the store raises the `kotoba` positive counter by
exactly 1 (from the lazily-initialised 0). -/
theorem apply_update_increment_correctness_witness :
    (getCounters
        (get_aggregate (update_app_data envOK "ts" pdThree stD).1.apps_data "Obenkyo")
        "kotoba").positive =
      (getCounters (get_aggregate stD.apps_data "Obenkyo") "kotoba").positive + 1 := by
  have h := ((apply_update_increment_correctness envOK "ts" pdThree stD (by decide)).1
    "kotoba" (by decide)).1
  simpa [pdThree] using h

/-- C3: calling the update coordinator with an empty detected-feature set is
rejected immediately: the whole state — in-memory aggregates, persisted
documents, backup files and audit log — is returned unchanged, so
`get_aggregate` is unchanged for every application. -/
theorem apply_update_empty_features_rejected (env : IOEnv) (ts : String)
    (pd : PredictionData) (st : AppState) (h : pd.prediction.features = []) :
    update_app_data env ts pd st = (st, Outcome.featureNotDetected) ∧
    (∀ a, get_aggregate (update_app_data env ts pd st).1.apps_data a =
        get_aggregate st.apps_data a) ∧
    (update_app_data env ts pd st).1.fs = st.fs := by
  have h1 : update_app_data env ts pd st = (st, Outcome.featureNotDetected) := by
    simp [update_app_data, h]
  exact ⟨h1, fun a => by rw [h1], by rw [h1]⟩

/-- C3 witness: Scenario B's featureless prediction is rejected and the
Scenario D state is returned untouched. -/
theorem apply_update_empty_features_rejected_witness :
    update_app_data envOK "ts" pdEmpty stD = (stD, Outcome.featureNotDetected) :=
  (apply_update_empty_features_rejected envOK "ts" pdEmpty stD rfl).1

/-- C9: no call to the update coordinator ever decreases either counter
field: a feature's counters read as `{0, 0}` before their lazy creation,
and both fields are non-decreasing and stay non-negative across every
`apply_update` call, for every application and feature. -/
theorem counters_nonneg_nondecreasing (env : IOEnv) (ts : String)
    (pd : PredictionData) (st : AppState) :
    (∀ a f,
        (getCounters (get_aggregate st.apps_data a) f).positive ≤
            (getCounters (get_aggregate (update_app_data env ts pd st).1.apps_data a)
              f).positive ∧
          (getCounters (get_aggregate st.apps_data a) f).negative ≤
            (getCounters (get_aggregate (update_app_data env ts pd st).1.apps_data a)
              f).negative) ∧
    (∀ (agg : AppAggregate) (f : String), afind f agg = none →
        getCounters agg f = ⟨0, 0⟩) ∧
    (∀ a f,
        (0 ≤ (getCounters (get_aggregate st.apps_data a) f).positive →
          0 ≤ (getCounters (get_aggregate (update_app_data env ts pd st).1.apps_data a)
                f).positive) ∧
        (0 ≤ (getCounters (get_aggregate st.apps_data a) f).negative →
          0 ≤ (getCounters (get_aggregate (update_app_data env ts pd st).1.apps_data a)
                f).negative)) := by
  have hmono : ∀ a f,
      (getCounters (get_aggregate st.apps_data a) f).positive ≤
          (getCounters (get_aggregate (update_app_data env ts pd st).1.apps_data a)
            f).positive ∧
        (getCounters (get_aggregate st.apps_data a) f).negative ≤
          (getCounters (get_aggregate (update_app_data env ts pd st).1.apps_data a)
            f).negative := by
    intro a f
    by_cases hne : pd.prediction.features = []
    · have h1 : update_app_data env ts pd st = (st, Outcome.featureNotDetected) := by
        simp [update_app_data, hne]
      rw [h1]
      exact ⟨le_refl _, le_refl _⟩
    · have hstore : (update_app_data env ts pd st).1.apps_data =
          updateStore pd.app pd.prediction.sentiment pd.prediction.features st.apps_data := by
        simp [update_app_data, hne]
      by_cases ha : a = pd.app
      · subst ha
        rw [hstore, get_aggregate_updateStore_self]
        exact getCounters_foldl_mono _ _ _ _
      · rw [hstore, get_aggregate_updateStore_ne _ _ _ _ _ ha]
        exact ⟨le_refl _, le_refl _⟩
  exact ⟨hmono, fun agg f h => by simp [getCounters, h],
    fun a f => ⟨fun h0 => le_trans h0 (hmono a f).1, fun h0 => le_trans h0 (hmono a f).2⟩⟩

/-- C9 witness: concrete reads of the lazy default and of non-negativity
preservation across a successful three-feature update. -/
theorem counters_nonneg_nondecreasing_witness :
    getCounters [("x", ⟨1, 2⟩)] "y" = ⟨0, 0⟩ ∧
      0 ≤ (getCounters
            (get_aggregate (update_app_data envOK "ts" pdThree stD).1.apps_data "Mazii")
            "kanji").positive :=
  ⟨(counters_nonneg_nondecreasing envOK "ts" pdThree stD).2.1 [("x", ⟨1, 2⟩)] "y" (by decide),
   ((counters_nonneg_nondecreasing envOK "ts" pdThree stD).2.2 "Mazii" "kanji").1 (by decide)⟩

/-- C10: the effective `_save_updated_data` (the second textual definition,
which shadows the first) returns `None` on every execution path, including
a fully successful save; consequently whenever `_update_app_data` reaches
its `if success:` test the success branch — success message, updated
statistics, session-state clearing, UI refresh — does not run.  By
contrast the shadowed first definition would have returned `True` on a
failure-free save. -/
theorem save_returns_none_success_branch_dead (env : IOEnv) (app_name : String)
    (pd : PredictionData) (data : AppAggregate) (ts : String) (fs : FS)
    (st : AppState) :
    (save_updated_data env app_name pd data ts fs).2 = none ∧
    (pd.prediction.features ≠ [] →
      (update_app_data env ts pd st).2 = Outcome.completed false) ∧
    (save_updated_data_shadowed envOK app_name pd data ts fs).2 = some true := by
  have h1 : ∀ (fs' : FS) (d : AppAggregate),
      (save_updated_data env app_name pd d ts fs').2 = none := by
    intro fs' d
    cases h : afind (app_filename app_name) fs'.rawFiles <;>
      cases hb : env.backupWriteFails <;> cases hp : env.persistWriteFails <;>
        cases hl : env.logWriteFails <;> simp [save_updated_data, h, hb, hp, hl]
  have h2 : ∀ (fs' : FS) (an : String) (d : AppAggregate),
      (save_updated_data env an pd d ts fs').2 = none := by
    intro fs' an d
    cases h : afind (app_filename an) fs'.rawFiles <;>
      cases hb : env.backupWriteFails <;> cases hp : env.persistWriteFails <;>
        cases hl : env.logWriteFails <;> simp [save_updated_data, h, hb, hp, hl]
  refine ⟨h1 fs data, fun hne => ?_, ?_⟩
  · simp [update_app_data, hne, h2, truthy]
  · cases h : afind (app_filename app_name) fs.rawFiles <;>
      simp [save_updated_data_shadowed, envOK, h]

/-- C10 witness: even with every file operation failing, a three-feature
update completes with the success branch not taken. -/
theorem save_returns_none_success_branch_dead_witness :
    (update_app_data ⟨true, true, true⟩ "ts" pdThree stD).2 = Outcome.completed false :=
  (save_returns_none_success_branch_dead ⟨true, true, true⟩ "Obenkyo" pdThree [] "ts"
    stD.fs stD).2.1 (by decide)

/-- Helper: in the no-failure environment the save path writes back exactly
the stored log with the new entry appended and trimmed to the last 100. -/
theorem save_ok_logs (app_name : String) (pd : PredictionData)
    (data : AppAggregate) (ts : String) (fs : FS) :
    ((save_updated_data envOK app_name pd data ts fs).1).logs =
      some (appendLog (fs.logs.getD [])
        (mkLogEntry app_name pd (backup_filename app_name ts))) := by
  cases h : afind (app_filename app_name) fs.rawFiles <;>
    simp [save_updated_data, envOK, h]

/-- C4: the audit log is capped at 100 entries.  Appending trims to the
last 100 in insertion order (the oldest-inserted entries are dropped from
the front, the new entry always lands at the end); every committed update
in the no-failure environment stores exactly this append; and folding 101
committed entries from an empty log leaves exactly 100 entries with the
first-inserted entry absent. -/
theorem audit_log_cap (logs : List LogEntry) (e e0 : LogEntry)
    (es' : List LogEntry) :
    (appendLog logs e).length ≤ 100 ∧
    appendLog logs e = logs.drop (logs.length + 1 - 100) ++ [e] ∧
    (∀ (ts : String) (pd : PredictionData) (st : AppState),
        pd.prediction.features ≠ [] →
        (update_app_data envOK ts pd st).1.fs.logs =
          some (appendLog (st.fs.logs.getD [])
            (mkLogEntry pd.app pd (backup_filename pd.app ts)))) ∧
    ((e0 :: es').length = 101 →
      (e0 :: es').foldl appendLog [] = es' ∧
        ((e0 :: es').foldl appendLog []).length = 100 ∧
        ((e0 :: es').Nodup → e0 ∉ (e0 :: es').foldl appendLog [])) := by
  refine ⟨length_appendLog_le logs e, appendLog_eq_drop_append logs e,
    fun ts pd st hne => ?_, fun hlen => ?_⟩
  · simp [update_app_data, hne, save_ok_logs]
  · have hf : (e0 :: es').foldl appendLog [] = es' := by
      rw [foldl_appendLog _ _ (by simp), List.nil_append]
      show List.drop ((e0 :: es').length - 100) (e0 :: es') = es'
      have h1 : (e0 :: es').length - 100 = 1 := by omega
      rw [h1]
      simp
    have hlen' : es'.length = 100 := by
      simpa using hlen
    refine ⟨hf, by rw [hf]; exact hlen', fun hnd => ?_⟩
    rw [hf]
    exact (List.nodup_cons.mp hnd).1

/-- C4 witness: 101 pairwise-distinct entries folded into an empty log
leave exactly 100, the first entry is gone, and a concrete committed
update stores the appended log. -/
theorem audit_log_cap_witness :
    ((mkE 100 :: (List.range 100).map mkE).foldl appendLog []).length = 100 ∧
      mkE 100 ∉ (mkE 100 :: (List.range 100).map mkE).foldl appendLog [] ∧
      (update_app_data envOK "ts1" pdThree stD).1.fs.logs =
        some (appendLog (stD.fs.logs.getD [])
          (mkLogEntry "Obenkyo" pdThree (backup_filename "Obenkyo" "ts1"))) := by
  have h := audit_log_cap [] (mkE 0) (mkE 100) ((List.range 100).map mkE)
  have h101 := h.2.2.2 (by decide)
  exact ⟨h101.2.1, h101.2.2 (by decide), h.2.2.1 "ts1" pdThree stD (by decide)⟩

/-- C6: for non-negative counters the displayed percentage obeys the
percentage law — it is `positive / (positive + negative) * 100` rounded to
one decimal place, and `0.0` (with no division) when the total is zero —
and the comparison-table cell always equals this formatted percentage of
the feature's (possibly lazily-defaulted) counters. -/
theorem percentage_law (pos neg : Int) (hp : 0 ≤ pos) (hn : 0 ≤ neg) :
    (pos + neg = 0 → pctOfCounts pos neg = 0 ∧ fmt1 (pctOfCounts pos neg) = 0) ∧
    (pos + neg ≠ 0 →
      fmt1 (pctOfCounts pos neg) =
        fmt1 ((pos : ℚ) / ((pos : ℚ) + (neg : ℚ)) * 100)) ∧
    (∃ k : ℤ, fmt1 (pctOfCounts pos neg) = (k : ℚ) / 10) ∧
    (∀ (appData : AppAggregate) (f : String),
      tablePct appData f =
        fmt1 (pctOfCounts (getCounters appData f).positive
          (getCounters appData f).negative)) := by
  refine ⟨fun h0 => ?_, fun h0 => ?_, ⟨round (10 * pctOfCounts pos neg), rfl⟩,
    fun appData f => ?_⟩
  · have : ¬ pos + neg > 0 := by omega
    simp [pctOfCounts, this, fmt1]
  · have hpos : pos + neg > 0 := by omega
    simp [pctOfCounts, hpos]
  · cases h : afind f appData with
    | none => simp [tablePct, getCounters, h, pctOfCounts]
    | some c => simp [tablePct, getCounters, h]

/-- C6 witness: Scenario C's updated counters `{58, 0}` give the formula's
value, and an all-zero pair gives `0.0`. -/
theorem percentage_law_witness :
    fmt1 (pctOfCounts 58 0) = fmt1 ((58 : ℚ) / ((58 : ℚ) + (0 : ℚ)) * 100) ∧
      pctOfCounts 0 0 = 0 :=
  ⟨(percentage_law 58 0 (by decide) (by decide)).2.1 (by decide),
   ((percentage_law 0 0 (by decide) (by decide)).1 (by decide)).1⟩

/-- C7 counterexample: a 101-character review yields a stored
`review_excerpt` of 103 characters (first 100 characters plus `"..."`),
refuting the claimed 100-character bound. -/
theorem review_excerpt_over_100 :
    ¬ ((review_excerpt (String.mk (List.replicate 101 'a'))).length ≤ 100) := by
  decide

/-- C7 amended: the stored `review_excerpt` equals the review text when the
text has at most 100 characters, and otherwise is the first 100 characters
followed by the three-character ellipsis `"..."`, so its length is exactly
103 in the truncated case and at most 103 always. -/
theorem review_excerpt_bound (s : String) :
    (s.length ≤ 100 → review_excerpt s = s) ∧
    (100 < s.length →
      review_excerpt s = String.mk (s.data.take 100) ++ "..." ∧
        (review_excerpt s).length = 103) ∧
    (review_excerpt s).length ≤ 103 := by
  by_cases h : s.length > 100
  · have hlen : (review_excerpt s).length = 103 := by
      have h100 : (100 : Nat) ≤ s.length := le_of_lt h
      have h3 : ("..." : String).length = 3 := by decide
      simp [review_excerpt, h, String.length_append, Nat.min_eq_left h100, h3]
    refine ⟨fun hle => absurd h (by omega), fun _ => ⟨by simp [review_excerpt, h], hlen⟩,
      le_of_eq hlen⟩
  · have he : review_excerpt s = s := by simp [review_excerpt, h]
    refine ⟨fun _ => he, fun hgt => absurd hgt h, ?_⟩
    rw [he]
    omega

/-- C7 witness for the amended statement: a short review is stored verbatim
and the 101-character review's excerpt has exactly 103 characters. -/
theorem review_excerpt_bound_witness :
    review_excerpt "abc" = "abc" ∧
      (review_excerpt (String.mk (List.replicate 101 'a'))).length = 103 :=
  ⟨(review_excerpt_bound "abc").1 (by decide),
   ((review_excerpt_bound (String.mk (List.replicate 101 'a'))).2.1 (by decide)).2⟩

/-- C8: listing the update history returns at most `limit` entries, ordered
newest-first by timestamp, each drawn from the stored log and matching the
optional application filter and the optional sentiment filter whenever
those are supplied. -/
theorem create_update_history_spec (logs : List LogEntry)
    (app_filter sentiment_filter : Option String) (limit : Nat) :
    (create_update_history logs app_filter sentiment_filter limit).length ≤ limit ∧
    (create_update_history logs app_filter sentiment_filter limit).Pairwise
      (fun a b => b.timestamp ≤ a.timestamp) ∧
    ∀ e ∈ create_update_history logs app_filter sentiment_filter limit,
      e ∈ logs ∧
        (∀ a, app_filter = some a → e.app_name = a) ∧
        (∀ s, sentiment_filter = some s → e.sentiment = s) := by
  have hsorted : (logs.mergeSort (fun a b => decide (b.timestamp ≤ a.timestamp))).Pairwise
      (fun a b : LogEntry => b.timestamp ≤ a.timestamp) := by
    have h := @List.sorted_mergeSort LogEntry
      (fun a b : LogEntry => decide (b.timestamp ≤ a.timestamp))
      (fun a b c hab hbc => by
        simp only [decide_eq_true_eq] at *
        exact le_trans hbc hab)
      (fun a b => by
        simp only [Bool.or_eq_true, decide_eq_true_eq]
        exact le_total b.timestamp a.timestamp)
      logs
    exact h.imp (fun hab => by simpa using hab)
  rcases app_filter with _ | a <;> rcases sentiment_filter with _ | s <;>
    simp only [create_update_history]
  · refine ⟨List.length_take_le _ _,
      List.Pairwise.sublist (List.take_sublist _ _) hsorted, fun e he => ?_⟩
    have h1 := List.mem_of_mem_take he
    refine ⟨List.mem_mergeSort.mp h1, fun a ha => ?_, fun s hs => ?_⟩
    · cases ha
    · cases hs
  · refine ⟨List.length_take_le _ _,
      List.Pairwise.sublist (List.take_sublist _ _) (hsorted.filter _), fun e he => ?_⟩
    have h1 := List.mem_filter.mp (List.mem_of_mem_take he)
    refine ⟨List.mem_mergeSort.mp h1.1, fun a ha => ?_, fun s' hs => ?_⟩
    · cases ha
    · cases hs
      exact of_decide_eq_true h1.2
  · refine ⟨List.length_take_le _ _,
      List.Pairwise.sublist (List.take_sublist _ _) (hsorted.filter _), fun e he => ?_⟩
    have h1 := List.mem_filter.mp (List.mem_of_mem_take he)
    refine ⟨List.mem_mergeSort.mp h1.1, fun a' ha => ?_, fun s hs => ?_⟩
    · cases ha
      exact of_decide_eq_true h1.2
    · cases hs
  · refine ⟨List.length_take_le _ _,
      List.Pairwise.sublist (List.take_sublist _ _) ((hsorted.filter _).filter _),
      fun e he => ?_⟩
    have h2 := List.mem_filter.mp (List.mem_of_mem_take he)
    have h1 := List.mem_filter.mp h2.1
    refine ⟨List.mem_mergeSort.mp h1.1, fun a' ha => ?_, fun s' hs => ?_⟩
    · cases ha
      exact of_decide_eq_true h1.2
    · cases hs
      exact of_decide_eq_true h2.2


/-- C8 witness: with both filters supplied on a singleton log, the returned
entry is from the log and matches both filters. -/
theorem create_update_history_spec_witness :
    eA ∈ [eA] ∧ eA.app_name = "Mazii" ∧ eA.sentiment = "positive" := by
  have h := create_update_history_spec [eA] (some "Mazii") (some "positive") 10
  have hmem : eA ∈ create_update_history [eA] (some "Mazii") (some "positive") 10 := by
    simp [create_update_history, List.mergeSort, eA]
  obtain ⟨he, hap, hse⟩ := h.2.2 eA hmem
  exact ⟨he, hap "Mazii" rfl, hse "positive" rfl⟩

/-- C5 (code_bug evaluation): in the no-failure run on Scenario D's state, a
verbatim timestamp-named copy of `Mazii`'s prior document is written to the
backup file before the document itself is overwritten — but when the backup
write is made to fail, the function-wide exception handler of the effective
`_save_updated_data` aborts the whole save: the document is not rewritten
and no audit entry is appended, contradicting the claim that a backup
failure is non-fatal to the commit. -/
theorem backup_failure_aborts_commit :
    afind (app_filename "Mazii") stD.fs.rawFiles = some [("kanji", ⟨5, 2⟩)] ∧
    afind (backup_filename "Mazii" "ts1")
        (update_app_data envOK "ts1" pdD stD).1.fs.backupFiles =
      some [("kanji", ⟨5, 2⟩)] ∧
    afind (app_filename "Mazii") (update_app_data envOK "ts1" pdD stD).1.fs.rawFiles =
      some [("kanji", ⟨6, 2⟩)] ∧
    (update_app_data ⟨true, false, false⟩ "ts1" pdD stD).1.fs = stD.fs := by
  decide

end NihongoNavigator
